import Mathlib

/-!
Verification of the minicoros `future<T>` combinator surface (src/include/minicoros/future.h).

The embedding is a deep syntax of pipelines (`FutS`) together with a trace-producing
evaluator (`evalF`) that mirrors, case by case, the stage lambdas installed by the
combinators of future.h.  Starters are synchronous and deliver a fixed
`concrete_result`; evaluation is single-threaded and deterministic, matching the
spec's "single-threaded and cooperative by construction" model.  Sinks thread a
polymorphic state `σ` so that the shared `tuple_result` / `any_result` collectors
used by the operators can be modelled faithfully as state shared between the two
sub-chain sinks.

The continuation-chain substrate (continuation_chain.h), the result/failure types
(types.h) and the collectors (detail/operation_helpers.h) are not part of the
sources; they are modelled from the spec where noted.
-/

namespace Minicoros

/-- Application error type carried by `failure` (`MINICOROS_ERROR_TYPE`), modelled as `Int`. -/
abbrev Error := Int

/-- Values that flow through pipelines: integers, the empty (`void`) payload, and tuples. -/
inductive Val : Type where
  | int : Int → Val
  | unit : Val
  | tup : List Val → Val


/-- Modelled from the spec: `concrete_result<T>` (types.h is not under src/): tagged union
of a successful value or a failure wrapping the application error. -/
inductive CR : Type where
  | success : Val → CR
  | failure : Error → CR


/-- Observable events of one evaluation: which starter or callback ran (identified by a
numeric id attached to the pipeline node), and each delivery into the terminal sink. -/
inductive Event : Type where
  | starterRun : Nat → Event
  | thenCb : Nat → Event
  | failCb : Nat → Event
  | mapCb : Nat → Event
  | sinkDone : CR → Event


/-- Trace of observable events produced by one evaluation. -/
abbrev Trace := List Event

/-- Modelled from the spec (§4.7): the components a value contributes to a merged tuple;
a tuple flattens into its components, `void` contributes nothing. -/
def mergeComponents : Val → List Val
  | Val.tup vs => vs
  | Val.unit => []
  | v => [v]

/-- Modelled from the spec (§4.4): outcome emitted by `tuple_result` once both sides have
reported.  Both successes merge into a flattened tuple (LHS components before RHS
components); a single failure is produced as-is; when both sides failed the
first-arriving failure is produced (`firstLhs` records which side arrived first). -/
def tupleFire (l r : CR) (firstLhs : Bool) : CR :=
  match l, r with
  | CR.success a, CR.success b => CR.success (Val.tup (mergeComponents a ++ mergeComponents b))
  | CR.failure e, CR.success _ => CR.failure e
  | CR.success _, CR.failure e => CR.failure e
  | CR.failure e1, CR.failure e2 => CR.failure (if firstLhs then e1 else e2)

/-- Modelled from the spec: `detail::tuple_result` (detail/operation_helpers.h is not under
src/): "Two optional slots for LHS/RHS outcomes, plus the downstream promise"; "once both
slots are filled, it emits a merged outcome into the promise". -/
structure TupleResult : Type where
  lhs : Option CR
  rhs : Option CR


/-- Modelled from the spec: `tuple_result::assign_lhs`.  Stores the LHS outcome; if the RHS
slot is already filled (the RHS arrived first), fires the downstream promise `k`. -/
def TupleResult.assign_lhs {σ : Type} (k : CR → σ → σ × Trace) (r : CR) :
    TupleResult × σ → (TupleResult × σ) × Trace
  | (b, s) =>
    match b.rhs with
    | some rr =>
      let p := k (tupleFire r rr false) s
      ((⟨some r, some rr⟩, p.1), p.2)
    | none => ((⟨some r, none⟩, s), [])

/-- Modelled from the spec: `tuple_result::assign_rhs`.  Stores the RHS outcome; if the LHS
slot is already filled (the LHS arrived first), fires the downstream promise `k`. -/
def TupleResult.assign_rhs {σ : Type} (k : CR → σ → σ × Trace) (r : CR) :
    TupleResult × σ → (TupleResult × σ) × Trace
  | (b, s) =>
    match b.lhs with
    | some ll =>
      let p := k (tupleFire ll r true) s
      ((⟨some ll, some r⟩, p.1), p.2)
    | none => ((⟨none, some r⟩, s), [])

/-- Modelled from the spec: `detail::any_result` (detail/operation_helpers.h is not under
src/): "a one-shot first-wins slot plus the downstream promise"; "the first arrival
emits, later arrivals are dropped". -/
structure AnyResult : Type where
  fired : Bool


/-- Modelled from the spec: `any_result::assign`: the first arrival fires the downstream
promise `k`, later arrivals are dropped. -/
def AnyResult.assign {σ : Type} (k : CR → σ → σ × Trace) (r : CR) :
    AnyResult × σ → (AnyResult × σ) × Trace
  | (b, s) =>
    if b.fired then ((b, s), [])
    else
      let p := k r s
      ((⟨true⟩, p.1), p.2)

mutual
/-- Syntax of pipelines built with the `future<T>` combinator surface of future.h:
a synchronous starter delivering a fixed outcome, `then` with a callback, `then` with a
prepared future, `fail`, `map`, and the operators `&&` (`andOp`), `||` (`orOp`) and `>>`
(`seqOp`).  Callback-carrying nodes hold an id used for invocation events. -/
inductive FutS : Type where
  | starter : Nat → CR → FutS
  | thenCB : FutS → Nat → (Val → ResS) → FutS
  | thenFut : FutS → FutS → FutS
  | failCB : FutS → Nat → (Error → ResS) → FutS
  | mapCB : FutS → Nat → (CR → CR) → FutS
  | andOp : FutS → FutS → FutS
  | orOp : FutS → FutS → FutS
  | seqOp : FutS → FutS → FutS

/-- Envelope a `then`/`fail` callback returns (`result<T>` of future.h): a plain value,
a prepared nested future, or a failure. -/
inductive ResS : Type where
  | value : Val → ResS
  | nested : FutS → ResS
  | fail : Error → ResS
end

mutual
/-- Evaluation of a pipeline into a sink `k` (continuation-chain `evaluate_into`,
modelled from the spec §4.3).  A state `σ` is threaded through sink calls so that the
shared collectors of the operators are genuine shared state between the two sub-chain
sinks.  Each case mirrors the corresponding stage lambda of future.h:
`thenCB` lines 146-162, `thenFut` lines 166-181, `failCB` lines 205-223, `mapCB`
lines 227-239, `andOp` lines 265-280, `orOp` lines 284-298, `seqOp` lines 302-317. -/
def evalF : FutS → {σ : Type} → (CR → σ → σ × Trace) → σ → σ × Trace
  | FutS.starter id r, _, k, s =>
    let p := k r s
    (p.1, Event.starterRun id :: p.2)
  | FutS.thenCB f id cb, _, k, s =>
    evalF f (fun r s =>
      match r with
      | CR.success v =>
        let p := evalRes (cb v) k s
        (p.1, Event.thenCb id :: p.2)
      | CR.failure e => k (CR.failure e) s) s
  | FutS.thenFut f coro, _, k, s =>
    evalF f (fun r s =>
      match r with
      | CR.success _ => evalF coro k s
      | CR.failure e => k (CR.failure e) s) s
  | FutS.failCB f id cb, _, k, s =>
    evalF f (fun r s =>
      match r with
      | CR.success v => k (CR.success v) s
      | CR.failure e =>
        let p := evalRes (cb e) k s
        (p.1, Event.failCb id :: p.2)) s
  | FutS.mapCB f id cb, _, k, s =>
    evalF f (fun r s =>
      let p := k (cb r) s
      (p.1, Event.mapCb id :: p.2)) s
  | FutS.andOp l r, _, k, s =>
    let p1 := evalF l (TupleResult.assign_lhs k) (⟨none, none⟩, s)
    let p2 := evalF r (TupleResult.assign_rhs k) p1.1
    (p2.1.2, p1.2 ++ p2.2)
  | FutS.orOp l r, _, k, s =>
    let p1 := evalF l (AnyResult.assign k) (⟨false⟩, s)
    let p2 := evalF r (AnyResult.assign k) p1.1
    (p2.1.2, p1.2 ++ p2.2)
  | FutS.seqOp l r, _, k, s =>
    let p1 := evalF l (fun res bs =>
      let q1 := TupleResult.assign_lhs k res bs
      let q2 := evalF r (TupleResult.assign_rhs k) q1.1
      (q2.1, q1.2 ++ q2.2)) (⟨none, none⟩, s)
    (p1.1.2, p1.2)

/-- Delivery of a `result<T>` envelope into a promise (`result::resolve_promise`,
future.h lines 380-389): a value or failure goes straight into the promise, a nested
future's chain is evaluated into it. -/
def evalRes : ResS → {σ : Type} → (CR → σ → σ × Trace) → σ → σ × Trace
  | ResS.value v, _, k, s => k (CR.success v) s
  | ResS.nested f, _, k, s => evalF f k s
  | ResS.fail e, _, k, s => k (CR.failure e) s
end

/-- Termination of a pipeline (`future::done`, future.h lines 246-249): the chain is
evaluated into a terminal sink that records each delivery as a `sinkDone` event. -/
def doneF (f : FutS) : Trace :=
  (evalF f (fun r (u : Unit) => (u, [Event.sinkDone r])) ()).2

/-- Starter of `make_successful_future(v)` (future.h lines 327-330): captures the value
and delivers it to its promise. -/
def make_successful_future (id : Nat) (v : Val) : FutS :=
  FutS.starter id (CR.success v)

/-- Starter of `make_failed_future<T>(e)` (future.h lines 347-350): delivers a failure
wrapping `e` to its promise. -/
def make_failed_future (id : Nat) (e : Error) : FutS :=
  FutS.starter id (CR.failure e)

/-- Embedding of `future::finally` (future.h lines 241-244): it delegates to `map`. -/
def finallyF (f : FutS) (id : Nat) (cb : CR → CR) : FutS :=
  FutS.mapCB f id cb

/-- Delivery of a `result` envelope directly into a recording terminal sink
(`result::resolve_promise(sink)` with the caller's sink). -/
def runRes (r : ResS) : Trace :=
  (evalRes r (fun c (u : Unit) => (u, [Event.sinkDone c])) ()).2

/-- Recognizer for terminal-sink delivery events. -/
def isSinkDone : Event → Bool
  | Event.sinkDone _ => true
  | _ => false

/-- Type-level codes for future value types, used to embed the return-type plumbing of
future.h. -/
inductive Ty : Type where
  | int : Ty
  | unit : Ty
  | tup : List Ty → Ty

/-- Return type of a fail handler as declared: `mc::result<T>` or bare `mc::failure`. -/
inductive FailRet : Type where
  | result : Ty → FailRet
  | failure : FailRet

/-- Embedding of `detail::resulting_failure_type` (future.h lines 61-77): a fail handler
returning `mc::result<T>` maps the future to type `T`; one returning bare `mc::failure`
maps it to the fallback type, i.e. the future's current type. -/
def resulting_failure_type : FailRet → Ty → Ty
  | FailRet.result t, _ => t
  | FailRet.failure, fallback => fallback

mutual
/-- The unique outcome a pipeline delivers to its sink per evaluation. -/
def output : FutS → CR
  | FutS.starter _ r => r
  | FutS.thenCB f _ cb =>
    match output f with
    | CR.success v => resOutput (cb v)
    | CR.failure e => CR.failure e
  | FutS.thenFut f coro =>
    match output f with
    | CR.success _ => output coro
    | CR.failure e => CR.failure e
  | FutS.failCB f _ cb =>
    match output f with
    | CR.success v => CR.success v
    | CR.failure e => resOutput (cb e)
  | FutS.mapCB f _ cb => cb (output f)
  | FutS.andOp l r => tupleFire (output l) (output r) true
  | FutS.orOp l _ => output l
  | FutS.seqOp l r => tupleFire (output l) (output r) true

/-- The unique outcome a `result` envelope delivers into its promise. -/
def resOutput : ResS → CR
  | ResS.value v => CR.success v
  | ResS.nested f => output f
  | ResS.fail e => CR.failure e
end

mutual
/-- Events a pipeline emits strictly before it delivers its outcome to its sink. -/
def preT : FutS → Trace
  | FutS.starter id _ => [Event.starterRun id]
  | FutS.thenCB f id cb =>
    match output f with
    | CR.success v => preT f ++ (Event.thenCb id :: resPreT (cb v))
    | CR.failure _ => preT f
  | FutS.thenFut f coro =>
    match output f with
    | CR.success _ => preT f ++ preT coro
    | CR.failure _ => preT f
  | FutS.failCB f id cb =>
    match output f with
    | CR.success _ => preT f
    | CR.failure e => preT f ++ (Event.failCb id :: resPreT (cb e))
  | FutS.mapCB f id _ => preT f ++ [Event.mapCb id]
  | FutS.andOp l r => preT l ++ (postT l ++ preT r)
  | FutS.orOp l _ => preT l
  | FutS.seqOp l r => preT l ++ preT r

/-- Events a `result` envelope emits strictly before delivering into its promise. -/
def resPreT : ResS → Trace
  | ResS.value _ => []
  | ResS.nested f => preT f
  | ResS.fail _ => []

/-- Events a pipeline emits after having delivered its outcome to its sink.  This is
non-empty only for pipelines containing a race, whose losing sub-chain keeps running
after the winning outcome has been delivered. -/
def postT : FutS → Trace
  | FutS.starter _ _ => []
  | FutS.thenCB f _ cb =>
    match output f with
    | CR.success v => resPostT (cb v) ++ postT f
    | CR.failure _ => postT f
  | FutS.thenFut f coro =>
    match output f with
    | CR.success _ => postT coro ++ postT f
    | CR.failure _ => postT f
  | FutS.failCB f _ cb =>
    match output f with
    | CR.success _ => postT f
    | CR.failure e => resPostT (cb e) ++ postT f
  | FutS.mapCB f _ _ => postT f
  | FutS.andOp _ r => postT r
  | FutS.orOp l r => postT l ++ (preT r ++ postT r)
  | FutS.seqOp l r => postT r ++ postT l

/-- Events a `result` envelope emits after delivering into its promise. -/
def resPostT : ResS → Trace
  | ResS.value _ => []
  | ResS.nested f => postT f
  | ResS.fail _ => []
end

mutual
/-- Factorization of evaluation: every pipeline, evaluated into any sink `k` in any
state `s`, invokes `k` exactly once, with the pipeline's unique `output` and with the
state `s` passed through untouched; its trace is the pre-delivery events, then the
sink's own trace, then the post-delivery events.  This is the single-delivery law of
the continuation chain. -/
theorem evalF_factor : (f : FutS) → {σ : Type} → (k : CR → σ → σ × Trace) → (s : σ) →
    evalF f k s = ((k (output f) s).1, preT f ++ ((k (output f) s).2 ++ postT f))
  | FutS.starter id r, _, k, s => by
    simp [evalF, output, preT, postT]
  | FutS.thenCB f id cb, _, k, s => by
    rw [evalF, evalF_factor f]
    cases ho : output f with
    | success v =>
      simp only [ho, output, preT, postT, evalRes_factor (cb v) k s, List.append_assoc,
        List.cons_append, List.append_nil]
    | failure e =>
      simp only [ho, output, preT, postT, List.append_assoc]
  | FutS.thenFut f coro, _, k, s => by
    rw [evalF, evalF_factor f]
    cases ho : output f with
    | success v =>
      simp only [ho, output, preT, postT, evalF_factor coro k s, List.append_assoc]
    | failure e =>
      simp only [ho, output, preT, postT, List.append_assoc]
  | FutS.failCB f id cb, _, k, s => by
    rw [evalF, evalF_factor f]
    cases ho : output f with
    | success v =>
      simp only [ho, output, preT, postT, List.append_assoc]
    | failure e =>
      simp only [ho, output, preT, postT, evalRes_factor (cb e) k s, List.append_assoc,
        List.cons_append, List.append_nil]
  | FutS.mapCB f id cb, _, k, s => by
    rw [evalF, evalF_factor f]
    simp [output, preT, postT, List.append_assoc]
  | FutS.andOp l r, _, k, s => by
    rw [evalF, evalF_factor l, evalF_factor r]
    simp [TupleResult.assign_lhs, TupleResult.assign_rhs, output, preT, postT,
      List.append_assoc]
  | FutS.orOp l r, _, k, s => by
    rw [evalF, evalF_factor l, evalF_factor r]
    simp [AnyResult.assign, output, preT, postT, List.append_assoc]
  | FutS.seqOp l r, _, k, s => by
    rw [evalF, evalF_factor l]
    simp only [evalF_factor r]
    simp [TupleResult.assign_lhs, TupleResult.assign_rhs, output, preT, postT,
      List.append_assoc]

/-- Factorization of `result::resolve_promise`: every envelope invokes its promise
exactly once with its unique outcome, and passes the state through untouched. -/
theorem evalRes_factor : (x : ResS) → {σ : Type} → (k : CR → σ → σ × Trace) → (s : σ) →
    evalRes x k s = ((k (resOutput x) s).1, resPreT x ++ ((k (resOutput x) s).2 ++ resPostT x))
  | ResS.value v, _, k, s => by simp [evalRes, resOutput, resPreT, resPostT]
  | ResS.nested f, _, k, s => by
    rw [evalRes, evalF_factor f]
    simp [resOutput, resPreT, resPostT]
  | ResS.fail e, _, k, s => by simp [evalRes, resOutput, resPreT, resPostT]
end

mutual
/-- Pipelines emit no terminal-sink delivery events of their own, neither before nor
after their delivery: every `sinkDone` event of a trace comes from the terminal sink. -/
theorem preT_sink_free : (f : FutS) →
    (preT f).countP isSinkDone = 0 ∧ (postT f).countP isSinkDone = 0
  | FutS.starter id r => by simp [preT, postT, isSinkDone]
  | FutS.thenCB f id cb => by
    have h1 := (preT_sink_free f).1
    have h2 := (preT_sink_free f).2
    have h3 : ∀ v, (resPreT (cb v)).countP isSinkDone = 0 := fun v => (resT_sink_free (cb v)).1
    have h4 : ∀ v, (resPostT (cb v)).countP isSinkDone = 0 := fun v => (resT_sink_free (cb v)).2
    cases ho : output f <;>
      simp [preT, postT, ho, List.countP_append, List.countP_cons, isSinkDone, h1, h2, h3, h4]
  | FutS.thenFut f coro => by
    have h1 := (preT_sink_free f).1
    have h2 := (preT_sink_free f).2
    have h3 := (preT_sink_free coro).1
    have h4 := (preT_sink_free coro).2
    cases ho : output f <;>
      simp [preT, postT, ho, List.countP_append, List.countP_cons, isSinkDone, h1, h2, h3, h4]
  | FutS.failCB f id cb => by
    have h1 := (preT_sink_free f).1
    have h2 := (preT_sink_free f).2
    have h3 : ∀ e, (resPreT (cb e)).countP isSinkDone = 0 := fun e => (resT_sink_free (cb e)).1
    have h4 : ∀ e, (resPostT (cb e)).countP isSinkDone = 0 := fun e => (resT_sink_free (cb e)).2
    cases ho : output f <;>
      simp [preT, postT, ho, List.countP_append, List.countP_cons, isSinkDone, h1, h2, h3, h4]
  | FutS.mapCB f id cb => by
    have h1 := (preT_sink_free f).1
    have h2 := (preT_sink_free f).2
    simp [preT, postT, List.countP_append, List.countP_cons, isSinkDone, h1, h2]
  | FutS.andOp l r => by
    have h1 := (preT_sink_free l).1
    have h2 := (preT_sink_free l).2
    have h3 := (preT_sink_free r).1
    have h4 := (preT_sink_free r).2
    simp [preT, postT, List.countP_append, h1, h2, h3, h4]
  | FutS.orOp l r => by
    have h1 := (preT_sink_free l).1
    have h2 := (preT_sink_free l).2
    have h3 := (preT_sink_free r).1
    have h4 := (preT_sink_free r).2
    simp [preT, postT, List.countP_append, h1, h2, h3, h4]
  | FutS.seqOp l r => by
    have h1 := (preT_sink_free l).1
    have h2 := (preT_sink_free l).2
    have h3 := (preT_sink_free r).1
    have h4 := (preT_sink_free r).2
    simp [preT, postT, List.countP_append, h1, h2, h3, h4]

/-- Result envelopes emit no terminal-sink delivery events of their own. -/
theorem resT_sink_free : (x : ResS) →
    (resPreT x).countP isSinkDone = 0 ∧ (resPostT x).countP isSinkDone = 0
  | ResS.value v => by simp [resPreT, resPostT]
  | ResS.nested f => by
    have h1 := (preT_sink_free f).1
    have h2 := (preT_sink_free f).2
    simp [resPreT, resPostT, h1, h2]
  | ResS.fail e => by simp [resPreT, resPostT]
end

/-- Characterization of `done`: the recorded trace is the pipeline's pre-delivery
events, one `sinkDone` carrying the pipeline's unique outcome, then the post-delivery
events. -/
theorem doneF_eq (f : FutS) :
    doneF f = preT f ++ (Event.sinkDone (output f) :: postT f) := by
  unfold doneF
  rw [evalF_factor f]
  simp

/-- Characterization of resolving an envelope into a recording sink. -/
theorem runRes_eq (x : ResS) :
    runRes x = resPreT x ++ (Event.sinkDone (resOutput x) :: resPostT x) := by
  unfold runRes
  rw [evalRes_factor x]
  simp

/-- C1: Single-delivery invariant.  For every well-typed pipeline terminated with
`done(sink)` and then evaluated, the terminal sink is invoked exactly once (the trace
contains exactly one `sinkDone` event), and every promise created along the chain is
invoked exactly once per evaluation: evaluating any chain — hence any sub-chain of a
larger pipeline, whose stage promises are the sinks of such chains — into a counting
sink increments the invocation counter by exactly one. -/
theorem C1_single_delivery (f : FutS) :
    (doneF f).countP isSinkDone = 1 ∧
    ∀ (n : Nat), (evalF f (fun _ (c : Nat) => (c + 1, ([] : Trace))) n).1 = n + 1 := by
  constructor
  · rw [doneF_eq]
    simp [List.countP_append, List.countP_cons, (preT_sink_free f).1, (preT_sink_free f).2,
      isSinkDone]
  · intro n
    rw [evalF_factor f]

/-- C2: for every evaluation of a pipeline, a `then` stage's callback is invoked iff
the inbound `concrete_result` is a success, and a `fail` stage's callback is invoked
iff the inbound `concrete_result` is a failure.  First conjunct: on an inbound
failure, for any downstream continuation and state, the `then` stage is
observationally absent — its callback is skipped entirely and the inbound failure is
forwarded verbatim to the stage's downstream promise.  Second conjunct: on an inbound
success, the `then` callback runs (its invocation event is emitted immediately after
the predecessor's events) and its returned envelope is delivered into the stage's
downstream promise.  Third conjunct: on an inbound success, the `fail` stage is
observationally absent — its callback is skipped.  Fourth conjunct: on an inbound
failure, the `fail` callback runs and its returned envelope is delivered into the
downstream promise. -/
theorem C2_then_callback_iff (f : FutS) (id : Nat) (cb : Val → ResS) (fcb : Error → ResS) :
    (∀ e, output f = CR.failure e →
      ∀ {σ : Type} (k : CR → σ → σ × Trace) (s : σ),
        evalF (FutS.thenCB f id cb) k s = evalF f k s) ∧
    (∀ v, output f = CR.success v →
      doneF (FutS.thenCB f id cb) =
        preT f ++ (Event.thenCb id :: (resPreT (cb v) ++
          (Event.sinkDone (resOutput (cb v)) :: (resPostT (cb v) ++ postT f))))) ∧
    (∀ v, output f = CR.success v →
      ∀ {σ : Type} (k : CR → σ → σ × Trace) (s : σ),
        evalF (FutS.failCB f id fcb) k s = evalF f k s) ∧
    (∀ e, output f = CR.failure e →
      doneF (FutS.failCB f id fcb) =
        preT f ++ (Event.failCb id :: (resPreT (fcb e) ++
          (Event.sinkDone (resOutput (fcb e)) :: (resPostT (fcb e) ++ postT f))))) := by
  refine ⟨?_, ?_, ?_, ?_⟩
  · intro e he σ k s
    rw [evalF_factor (FutS.thenCB f id cb), evalF_factor f]
    simp [output, preT, postT, he]
  · intro v hv
    rw [doneF_eq]
    simp [output, preT, postT, hv, List.append_assoc]
  · intro v hv σ k s
    rw [evalF_factor (FutS.failCB f id fcb), evalF_factor f]
    simp [output, preT, postT, hv]
  · intro e he
    rw [doneF_eq]
    simp [output, preT, postT, he, List.append_assoc]

/-- Witness for C2: a failing predecessor (error 5) skips the `then` callback and
forwards the failure, while the `fail` callback runs on it; a successful predecessor
(value 2) runs the `then` callback while the `fail` callback is skipped. -/
theorem C2_then_callback_iff_witness :
    (evalF (FutS.thenCB (FutS.starter 0 (CR.failure 5)) 1 (fun v => ResS.value v))
        (fun r (u : Unit) => (u, [Event.sinkDone r])) () =
      evalF (FutS.starter 0 (CR.failure 5)) (fun r (u : Unit) => (u, [Event.sinkDone r])) ()) ∧
    (doneF (FutS.thenCB (FutS.starter 0 (CR.success (Val.int 2))) 1 (fun v => ResS.value v)) =
      preT (FutS.starter 0 (CR.success (Val.int 2))) ++ (Event.thenCb 1 ::
        (resPreT (ResS.value (Val.int 2)) ++ (Event.sinkDone (resOutput (ResS.value (Val.int 2))) ::
          (resPostT (ResS.value (Val.int 2)) ++ postT (FutS.starter 0 (CR.success (Val.int 2)))))))) ∧
    (evalF (FutS.failCB (FutS.starter 0 (CR.success (Val.int 2))) 1 (fun e => ResS.fail e))
        (fun r (u : Unit) => (u, [Event.sinkDone r])) () =
      evalF (FutS.starter 0 (CR.success (Val.int 2))) (fun r (u : Unit) => (u, [Event.sinkDone r])) ()) ∧
    (doneF (FutS.failCB (FutS.starter 0 (CR.failure 5)) 1 (fun e => ResS.fail e)) =
      preT (FutS.starter 0 (CR.failure 5)) ++ (Event.failCb 1 ::
        (resPreT (ResS.fail 5) ++ (Event.sinkDone (resOutput (ResS.fail 5)) ::
          (resPostT (ResS.fail 5) ++ postT (FutS.starter 0 (CR.failure 5))))))) :=
  ⟨(C2_then_callback_iff (FutS.starter 0 (CR.failure 5)) 1 (fun v => ResS.value v)
      (fun e => ResS.fail e)).1 5 rfl _ _,
   (C2_then_callback_iff (FutS.starter 0 (CR.success (Val.int 2))) 1 (fun v => ResS.value v)
      (fun e => ResS.fail e)).2.1 (Val.int 2) rfl,
   (C2_then_callback_iff (FutS.starter 0 (CR.success (Val.int 2))) 1 (fun v => ResS.value v)
      (fun e => ResS.fail e)).2.2.1 (Val.int 2) rfl _ _,
   (C2_then_callback_iff (FutS.starter 0 (CR.failure 5)) 1 (fun v => ResS.value v)
      (fun e => ResS.fail e)).2.2.2 5 rfl⟩

/-- C3: `then(future<U> coro)`.  The inner chain of `coro` is a sub-term extracted at
composition time and run only during evaluation.  First conjunct: if the predecessor
succeeds, the extracted chain is evaluated into the downstream promise, ignoring the
predecessor's value.  Second conjunct: if the predecessor fails, for any downstream
continuation and state the whole stage behaves exactly as the predecessor alone — the
extracted chain is cancelled, no stage of `coro` (its starter included) contributes
anything to the evaluation, and the predecessor's failure is forwarded downstream. -/
theorem C3_then_future_cancel (f coro : FutS) :
    (∀ v, output f = CR.success v →
      doneF (FutS.thenFut f coro) =
        preT f ++ (preT coro ++ (Event.sinkDone (output coro) :: (postT coro ++ postT f)))) ∧
    (∀ e, output f = CR.failure e →
      ∀ {σ : Type} (k : CR → σ → σ × Trace) (s : σ),
        evalF (FutS.thenFut f coro) k s = evalF f k s) := by
  constructor
  · intro v hv
    rw [doneF_eq]
    simp [output, preT, postT, hv, List.append_assoc]
  · intro e he σ k s
    rw [evalF_factor (FutS.thenFut f coro), evalF_factor f]
    simp [output, preT, postT, he]

/-- Witness for C3: a successful predecessor evaluates the staged chain; a failing
predecessor (error 9) cancels it — its starter event never appears. -/
theorem C3_then_future_cancel_witness :
    (doneF (FutS.thenFut (FutS.starter 0 (CR.success Val.unit)) (FutS.starter 5 (CR.success (Val.int 2)))) =
      preT (FutS.starter 0 (CR.success Val.unit)) ++ (preT (FutS.starter 5 (CR.success (Val.int 2))) ++
        (Event.sinkDone (output (FutS.starter 5 (CR.success (Val.int 2)))) ::
          (postT (FutS.starter 5 (CR.success (Val.int 2))) ++ postT (FutS.starter 0 (CR.success Val.unit)))))) ∧
    (evalF (FutS.thenFut (FutS.starter 0 (CR.failure 9)) (FutS.starter 5 (CR.success (Val.int 2))))
        (fun r (u : Unit) => (u, [Event.sinkDone r])) () =
      evalF (FutS.starter 0 (CR.failure 9)) (fun r (u : Unit) => (u, [Event.sinkDone r])) ()) :=
  ⟨(C3_then_future_cancel (FutS.starter 0 (CR.success Val.unit)) (FutS.starter 5 (CR.success (Val.int 2)))).1
     Val.unit rfl,
   (C3_then_future_cancel (FutS.starter 0 (CR.failure 9)) (FutS.starter 5 (CR.success (Val.int 2)))).2
     9 rfl _ _⟩

/-- C4: `operator>>`.  First conjunct: the full trace — the RHS chain's events all
occur after the LHS chain's pre-delivery events (the RHS is launched from inside the
LHS's sink, so it starts only once the LHS has delivered its outcome; the LHS's own
post-delivery leftovers even come after the whole RHS trace), and the sink receives
the tuple-collector merge of both outcomes.  Second conjunct: when the LHS fails, the
RHS is still evaluated — its full trace is present, no short-circuit — and the LHS
failure participates in the merged outcome.  Third conjunct: the collector records the
LHS failure in the LHS slot without firing. -/
theorem C4_seq_no_short_circuit (l r : FutS) :
    doneF (FutS.seqOp l r) =
      preT l ++ (preT r ++ (Event.sinkDone (tupleFire (output l) (output r) true) ::
        (postT r ++ postT l))) ∧
    (∀ e, output l = CR.failure e →
      doneF (FutS.seqOp l r) =
        preT l ++ (preT r ++ (Event.sinkDone (tupleFire (CR.failure e) (output r) true) ::
          (postT r ++ postT l)))) ∧
    (∀ {σ : Type} (k : CR → σ → σ × Trace) (s : σ) (e : Error),
      TupleResult.assign_lhs k (CR.failure e) (⟨none, none⟩, s) =
        ((⟨some (CR.failure e), none⟩, s), [])) := by
  refine ⟨?_, ?_, ?_⟩
  · rw [doneF_eq]
    simp [output, preT, postT, List.append_assoc]
  · intro e he
    rw [doneF_eq]
    simp [output, preT, postT, he, List.append_assoc]
  · intro σ k s e
    simp [TupleResult.assign_lhs]

/-- Witness for C4: with a failed LHS (error 9) and a successful RHS (value 2), the RHS
starter still runs and the sink receives the LHS failure. -/
theorem C4_seq_no_short_circuit_witness :
    doneF (FutS.seqOp (make_failed_future 0 9) (make_successful_future 1 (Val.int 2))) =
      preT (make_failed_future 0 9) ++ (preT (make_successful_future 1 (Val.int 2)) ++
        (Event.sinkDone (tupleFire (CR.failure 9) (output (make_successful_future 1 (Val.int 2))) true) ::
          (postT (make_successful_future 1 (Val.int 2)) ++ postT (make_failed_future 0 9)))) :=
  (C4_seq_no_short_circuit (make_failed_future 0 9) (make_successful_future 1 (Val.int 2))).2.1 9 rfl

/-- C5: `operator&&`.  First conjunct: at evaluation start both sub-chains are launched,
LHS first then RHS (the trace is the LHS chain's complete trace followed by the RHS
chain's), and the downstream promise fires exactly once, only after both sides have
reported (the single `sinkDone` sits after both chains' pre-delivery events).  Second
conjunct: exactly one delivery.  Remaining conjuncts: two successes merge into the
flattened tuple with LHS components first; exactly one failure produces that failure;
two failures produce the first-arriving one — the LHS failure, since the sub-chains
complete synchronously in launch order — and the second is dropped. -/
theorem C5_and_join (l r : FutS) :
    doneF (FutS.andOp l r) =
      preT l ++ (postT l ++ (preT r ++ (Event.sinkDone (tupleFire (output l) (output r) true) ::
        postT r))) ∧
    (doneF (FutS.andOp l r)).countP isSinkDone = 1 ∧
    (∀ a b, output l = CR.success a → output r = CR.success b →
      output (FutS.andOp l r) = CR.success (Val.tup (mergeComponents a ++ mergeComponents b))) ∧
    (∀ e b, output l = CR.failure e → output r = CR.success b →
      output (FutS.andOp l r) = CR.failure e) ∧
    (∀ a e, output l = CR.success a → output r = CR.failure e →
      output (FutS.andOp l r) = CR.failure e) ∧
    (∀ e1 e2, output l = CR.failure e1 → output r = CR.failure e2 →
      output (FutS.andOp l r) = CR.failure e1) := by
  refine ⟨?_, ?_, ?_, ?_, ?_, ?_⟩
  · rw [doneF_eq]
    simp [output, preT, postT, List.append_assoc]
  · rw [doneF_eq]
    simp [List.countP_append, List.countP_cons, (preT_sink_free (FutS.andOp l r)).1,
      (preT_sink_free (FutS.andOp l r)).2, isSinkDone]
  · intro a b ha hb
    simp [output, tupleFire, ha, hb]
  · intro e b ha hb
    simp [output, tupleFire, ha, hb]
  · intro a e ha hb
    simp [output, tupleFire, ha, hb]
  · intro e1 e2 ha hb
    simp [output, tupleFire, ha, hb]

/-- Witness for C5: both sides fail (errors 3 and 4); the first-arriving — the LHS —
failure is produced. -/
theorem C5_and_join_witness :
    output (FutS.andOp (make_failed_future 0 3) (make_failed_future 1 4)) = CR.failure 3 :=
  (C5_and_join (make_failed_future 0 3) (make_failed_future 1 4)).2.2.2.2.2 3 4 rfl rfl

/-- C6: `operator||`.  The resulting future delivers exactly the first outcome to
arrive from either sub-chain — in the synchronous evaluation order of the model the
LHS completes first, so the LHS outcome wins, success or failure — and the downstream
promise is invoked exactly once: the filtered delivery events are exactly one
`sinkDone` carrying the LHS outcome (never both outcomes, never neither); the later
outcome is dropped. -/
theorem C6_or_first_outcome (l r : FutS) :
    (doneF (FutS.orOp l r)).filter isSinkDone = [Event.sinkDone (output l)] ∧
    (doneF (FutS.orOp l r)).countP isSinkDone = 1 := by
  have hp := (preT_sink_free (FutS.orOp l r)).1
  have hq := (preT_sink_free (FutS.orOp l r)).2
  constructor
  · rw [doneF_eq]
    simp only [List.filter_append, List.filter_cons]
    rw [List.filter_eq_nil_iff.mpr (by simpa using List.countP_eq_zero.mp hp),
      List.filter_eq_nil_iff.mpr (by simpa using List.countP_eq_zero.mp hq)]
    simp [output, isSinkDone]
  · rw [doneF_eq]
    simp [List.countP_append, List.countP_cons, hp, hq, isSinkDone]

/-- C7: a `fail` stage.  First conjunct: on an inbound success, for any downstream
continuation and state the stage is observationally absent — the successful result is
forwarded unchanged.  Second conjunct: on an inbound failure, the callback is invoked
with the inner error (its invocation event follows the predecessor's events) and its
returned envelope is delivered into the downstream promise.  Third conjunct: a bare
`failure` return delivers that failure downstream.  Fourth conjunct: at the type
level, a bare failure return leaves the future's type unchanged
(`detail::resulting_failure_type` maps `mc::failure` to the fallback type). -/
theorem C7_fail_stage (f : FutS) (id : Nat) (cb : Error → ResS) :
    (∀ v, output f = CR.success v →
      ∀ {σ : Type} (k : CR → σ → σ × Trace) (s : σ),
        evalF (FutS.failCB f id cb) k s = evalF f k s) ∧
    (∀ e, output f = CR.failure e →
      doneF (FutS.failCB f id cb) =
        preT f ++ (Event.failCb id :: (resPreT (cb e) ++
          (Event.sinkDone (resOutput (cb e)) :: (resPostT (cb e) ++ postT f))))) ∧
    (∀ e e', output f = CR.failure e → cb e = ResS.fail e' →
      output (FutS.failCB f id cb) = CR.failure e') ∧
    (∀ t, resulting_failure_type FailRet.failure t = t) := by
  refine ⟨?_, ?_, ?_, ?_⟩
  · intro v hv σ k s
    rw [evalF_factor (FutS.failCB f id cb), evalF_factor f]
    simp [output, preT, postT, hv]
  · intro e he
    rw [doneF_eq]
    simp [output, preT, postT, he, List.append_assoc]
  · intro e e' he hcb
    simp [output, he, hcb, resOutput]
  · intro t
    simp [resulting_failure_type]

/-- Witness for C7: a successful predecessor passes through a fail stage untouched; a
failing one (error 7) invokes the callback, which recovers with value 8. -/
theorem C7_fail_stage_witness :
    (evalF (FutS.failCB (FutS.starter 0 (CR.success (Val.int 1))) 1 (fun e => ResS.value (Val.int (e + 1))))
        (fun r (u : Unit) => (u, [Event.sinkDone r])) () =
      evalF (FutS.starter 0 (CR.success (Val.int 1))) (fun r (u : Unit) => (u, [Event.sinkDone r])) ()) ∧
    (doneF (FutS.failCB (FutS.starter 0 (CR.failure 7)) 1 (fun e => ResS.value (Val.int (e + 1)))) =
      preT (FutS.starter 0 (CR.failure 7)) ++ (Event.failCb 1 ::
        (resPreT (ResS.value (Val.int 8)) ++ (Event.sinkDone (resOutput (ResS.value (Val.int 8))) ::
          (resPostT (ResS.value (Val.int 8)) ++ postT (FutS.starter 0 (CR.failure 7))))))) :=
  ⟨(C7_fail_stage (FutS.starter 0 (CR.success (Val.int 1))) 1
      (fun e => ResS.value (Val.int (e + 1)))).1 (Val.int 1) rfl _ _,
   (C7_fail_stage (FutS.starter 0 (CR.failure 7)) 1
      (fun e => ResS.value (Val.int (e + 1)))).2.1 7 rfl⟩

/-- C8: `finally` is observationally equal to `map`.  First conjunct: for every
pipeline, callback, downstream continuation and state, `finally` evaluates exactly as
`map` (the source delegates directly).  Second conjunct: the map/finally stage invokes
its callback exactly once per evaluation with the inbound `concrete_result` — its
single invocation event is emitted right after the predecessor delivers, whether the
inbound result is a success or a failure — and forwards the callback's returned
`concrete_result` as-is to the downstream promise. -/
theorem C8_finally_is_map (f : FutS) (id : Nat) (cb : CR → CR) :
    (∀ {σ : Type} (k : CR → σ → σ × Trace) (s : σ),
      evalF (finallyF f id cb) k s = evalF (FutS.mapCB f id cb) k s) ∧
    doneF (FutS.mapCB f id cb) =
      preT f ++ (Event.mapCb id :: (Event.sinkDone (cb (output f)) :: postT f)) := by
  constructor
  · intro σ k s
    rfl
  · rw [doneF_eq]
    simp [output, preT, postT, List.append_assoc]

/-- C9: `make_successful_future(v).then(f).done(sink)` is observationally equivalent to
`result<U>{f(v)}.resolve_promise(sink)`: the sink receives exactly the same deliveries
(first conjunct: equal filtered delivery events), and the final outcome of the
composed pipeline is the outcome of the envelope `f(v)` (second conjunct). -/
theorem C9_msf_then_resolve (sid tid : Nat) (v : Val) (cb : Val → ResS) :
    (doneF (FutS.thenCB (make_successful_future sid v) tid cb)).filter isSinkDone =
      (runRes (cb v)).filter isSinkDone ∧
    output (FutS.thenCB (make_successful_future sid v) tid cb) = resOutput (cb v) := by
  have h1 := (preT_sink_free (FutS.thenCB (make_successful_future sid v) tid cb)).1
  have h2 := (preT_sink_free (FutS.thenCB (make_successful_future sid v) tid cb)).2
  have h3 := (resT_sink_free (cb v)).1
  have h4 := (resT_sink_free (cb v)).2
  have hout : output (FutS.thenCB (make_successful_future sid v) tid cb) = resOutput (cb v) := by
    simp [output, make_successful_future]
  refine ⟨?_, hout⟩
  rw [doneF_eq, runRes_eq]
  simp only [List.filter_append, List.filter_cons]
  rw [List.filter_eq_nil_iff.mpr (by simpa using List.countP_eq_zero.mp h1),
    List.filter_eq_nil_iff.mpr (by simpa using List.countP_eq_zero.mp h2),
    List.filter_eq_nil_iff.mpr (by simpa using List.countP_eq_zero.mp h3),
    List.filter_eq_nil_iff.mpr (by simpa using List.countP_eq_zero.mp h4)]
  simp [hout, isSinkDone]

/-- C10: `operator||` unconditionally launches both sub-chains at evaluation start, LHS
first then RHS.  The losing sub-chain is not cancelled: its complete trace — all its
pre- and post-delivery events, i.e. every side effect of its stages — still appears in
the evaluation, after the winning outcome has been delivered; only its outcome is
discarded by the one-shot collector (the trace contains no second delivery). -/
theorem C10_or_loser_still_runs (l r : FutS) :
    doneF (FutS.orOp l r) =
      preT l ++ (Event.sinkDone (output l) :: (postT l ++ (preT r ++ postT r))) := by
  rw [doneF_eq]
  simp [output, preT, postT, List.append_assoc]

end Minicoros
